import Mathlib

/-!
Verification of the agent execution core of the T-5000 multi-agent system.

The definitions below are a shallow embedding of the Python source:
  * `src/agent_system/core/datatypes.py`   (ToolCall, ToolResult, ChatMessage)
  * `src/agent_system/core/agent.py`       (BaseAgent._execute_tool, BaseAgent.run)
  * `src/agent_system/core/controller.py`  (ControllerAgent)
  * `src/agent_system/llm_providers/anthropic.py` (history conversion, send_message)
  * `src/agent_system/tools/filesystem.py` (read_file)

External effects (the LLM provider, the operator answering confirmation
prompts, tool callables, the file system) are modelled as explicit
environments passed to the embedded functions.
-/

/-- A Python runtime value as it appears in tool-call argument dictionaries. -/
inductive PyVal where
  | str : String → PyVal
  | int : Int → PyVal
  | bool : Bool → PyVal
  | none : PyVal
deriving DecidableEq, Repr

/-- A Python keyword-argument dictionary (`Dict[str, Any]`), as an association list. -/
def Args := List (String × PyVal)
deriving DecidableEq, Repr

/-- `d.get(k)` on a Python dict. -/
def argGet (args : Args) (k : String) : Option PyVal :=
  List.lookup k args

/-- Embedding of Python `str.startswith(pre)`: `pre` is a prefix of `s`
(stated over the character sequences of the two strings). -/
def pyStartswith (s pre : String) : Bool :=
  pre.data.isPrefixOf s.data

/-- Embedding of Python `str.strip()`: drop leading and trailing
whitespace. -/
def pyStrip (s : String) : String :=
  ⟨((s.data.dropWhile Char.isWhitespace).reverse.dropWhile Char.isWhitespace).reverse⟩

/-- `datatypes.ToolCall`: a request from the LLM to call a specific tool. -/
structure ToolCall where
  id : String
  name : String
  arguments : Args
deriving DecidableEq, Repr

/-- `datatypes.ToolResult`: the raw record (five fields of the dataclass). -/
structure ToolResult where
  id : String
  name : String
  result : Option String := Option.none
  error : Option String := Option.none
  is_error : Bool := false
deriving DecidableEq, Repr

/-- Constructing a `ToolResult` in Python always runs `__post_init__`, which
forces `is_error = True` whenever `error` is not `None`.  Every construction
site in the source is embedded through this function. -/
def mkToolResult (id name : String) (result error : Option String) (is_error : Bool) :
    ToolResult :=
  ⟨id, name, result, error, if error.isSome then true else is_error⟩

/-- An element of a Python list stored in a `ChatMessage` part.  At runtime a
part that is a list holds `ToolCall` objects or `ToolResult` objects (the
`MessagePart` union in `datatypes.py` is not enforced by the interpreter, so
the element kind is carried per item, exactly as Python does). -/
inductive ToolItem where
  | call : ToolCall → ToolItem
  | result : ToolResult → ToolItem
deriving DecidableEq, Repr

/-- `datatypes.MessagePart`: a part is plain text or a Python list of items.
An empty Python list is `.list []`, with no element-type tag — exactly the
ambiguity present in the source. -/
inductive MessagePart where
  | text : String → MessagePart
  | list : List ToolItem → MessagePart
deriving DecidableEq, Repr

/-- `datatypes.ChatMessage`.  The float timestamp plays no computational role
in the embedded code paths; it is carried as a `Nat`. -/
structure ChatMessage where
  role : String
  parts : List MessagePart
  timestamp : Nat := 0
deriving DecidableEq, Repr

/-- `ChatMessage.get_text_content`: join all string parts with a newline.
Note that this always returns a string (never Python `None`). -/
def ChatMessage.get_text_content (m : ChatMessage) : String :=
  String.intercalate "\n"
    (m.parts.filterMap fun p => match p with
      | .text s => Option.some s
      | .list _ => Option.none)

/-! ## Durable JSON layout (`ChatMessage.to_dict` / `from_dict`) -/

/-- The dictionary produced by `ToolCall.to_dict` (keys `id`, `name`,
`arguments`) or by `ToolResult.to_dict` (keys `id`, `name`, `result`,
`error`, `is_error`). -/
inductive SDict where
  | callD (id name : String) (arguments : Args)
  | resultD (id name : String) (result error : Option String) (is_error : Bool)
deriving DecidableEq, Repr

/-- Duck-typed `item.to_dict()` as invoked by `ChatMessage.to_dict` on each
element of a list part. -/
def ToolItem.to_dict : ToolItem → SDict
  | .call tc => .callD tc.id tc.name tc.arguments
  | .result tr => .resultD tr.id tr.name tr.result tr.error tr.is_error

/-- `ToolCall.from_dict`: reads `data['id']`, `data['name']`,
`data['arguments']`.  On a result-shaped dict the missing `'arguments'` key
raises `KeyError`, modelled as `none`. -/
def ToolCall.from_dict : SDict → Option ToolCall
  | .callD i n a => Option.some ⟨i, n, a⟩
  | .resultD _ _ _ _ _ => Option.none

/-- `ToolResult.from_dict`: mandatory `data['id']`/`data['name']`, the rest
via `.get`, `is_error` defaulting to `data.get('error') is not None`; the
dataclass constructor then runs `__post_init__` (`mkToolResult`).  Both dict
shapes supply `id` and `name`, so this never raises. -/
def ToolResult.from_dict : SDict → ToolResult
  | .callD i n _ => mkToolResult i n Option.none Option.none false
  | .resultD i n r e ie => mkToolResult i n r e ie

/-- One entry of a serialized `parts` array, tagged by kind. -/
inductive SPart where
  | text (content : String)
  | toolCalls (content : List SDict)
  | toolResults (content : List SDict)
  | emptyList
  | unknown (content : String)
deriving DecidableEq, Repr

/-- Serialization of one part, following the `isinstance` dispatch in
`ChatMessage.to_dict`: a string becomes a `text` entry; a non-empty list is
tagged by the type of its first element and each element is serialized with
its own `to_dict`; an empty list becomes `empty_list`. -/
def MessagePart.serialize : MessagePart → SPart
  | .text s => .text s
  | .list [] => .emptyList
  | .list (items@(ToolItem.call _ :: _)) => .toolCalls (items.map ToolItem.to_dict)
  | .list (items@(ToolItem.result _ :: _)) => .toolResults (items.map ToolItem.to_dict)

/-- Deserialization of one part, following `ChatMessage.from_dict`.  A
`tool_calls` entry maps `ToolCall.from_dict` over the content (a `KeyError`
there propagates: `none`); a `tool_results` entry maps `ToolResult.from_dict`;
`empty_list` reconstructs the bare empty Python list; an unknown tag falls
back to the string representation of its content. -/
def SPart.deserialize : SPart → Option MessagePart
  | .text s => Option.some (.text s)
  | .toolCalls l => (l.mapM ToolCall.from_dict).map fun cs => .list (cs.map ToolItem.call)
  | .toolResults l => Option.some (.list (l.map fun d => ToolItem.result (ToolResult.from_dict d)))
  | .emptyList => Option.some (.list [])
  | .unknown s => Option.some (.text s)

/-- The dictionary produced by `ChatMessage.to_dict`. -/
structure SMsg where
  role : String
  parts : List SPart
  timestamp : Nat
deriving DecidableEq, Repr

/-- `ChatMessage.to_dict`. -/
def ChatMessage.to_dict (m : ChatMessage) : SMsg :=
  ⟨m.role, m.parts.map MessagePart.serialize, m.timestamp⟩

/-- `ChatMessage.from_dict`; an exception from a part deserializer
propagates out of the classmethod (`none`). -/
def ChatMessage.from_dict (d : SMsg) : Option ChatMessage :=
  (d.parts.mapM SPart.deserialize).map fun ps => ⟨d.role, ps, d.timestamp⟩

/-- `__post_init__` invariant of `ToolResult`: a record with an error message
is flagged as an error.  Every `ToolResult` built by the program satisfies
this. -/
def ToolResult.valid (tr : ToolResult) : Bool :=
  match tr.error with
  | Option.some _ => tr.is_error
  | Option.none => true

/-- A part is well-formed when any list part is homogeneous: all tool calls,
or all (valid) tool results.  This is the shape the agent loop produces and
the shape claim C7 ranges over. -/
def MessagePart.wf : MessagePart → Bool
  | .text _ => true
  | .list items =>
      items.all (fun i => match i with | .call _ => true | .result _ => false) ||
      items.all (fun i => match i with | .call _ => false | .result r => r.valid)

/-- A message is well-formed when all its parts are. -/
def ChatMessage.wf (m : ChatMessage) : Bool :=
  m.parts.all MessagePart.wf

/-! ## Tool dispatch (`BaseAgent._execute_tool`, `agent.py` lines 214-264) -/

/-- Outcome of awaiting a tool callable: a returned string, a raised
`TypeError` (bad arguments), or any other raised exception. -/
inductive ToolOutcome where
  | ok (s : String)
  | typeErr (msg : String)
  | exn (msg : String)
deriving DecidableEq, Repr

/-- A registered tool callable, as a function of its keyword arguments. -/
def ToolFn := Args → ToolOutcome

/-- The environment a `BaseAgent` executes tools in:
`tools` is `self.agent_tool_functions.get`, `allowed` is
`self.allowed_tools`, `highRisk` is `settings.HIGH_RISK_TOOLS`, `confirm`
is the operator's answer collected by the interactive prompt inside
`ask_confirmation_async`, and `agentName` is `self.name`. -/
structure AgentEnv where
  agentName : String
  tools : String → Option ToolFn
  allowed : List String
  highRisk : List String
  confirm : String → Args → Bool

/-- Observable events of one `_execute_tool` invocation, in program order:
the call to the confirmation gate (`ask_confirmation_async`) and the
invocation of the tool's underlying callable. -/
inductive Event where
  | confirmAsked (name : String) (args : Args)
  | toolInvoked (name : String) (args : Args)
deriving DecidableEq, Repr

/-- `tool_utils.ask_confirmation_async`: auto-confirms any tool not in the
high-risk list, otherwise blocks on the operator's answer. -/
def ask_confirmation_async (env : AgentEnv) (name : String) (args : Args) : Bool :=
  if name ∈ env.highRisk then env.confirm name args else true

/-- The `try: tool_output = await tool_function(**args) ...` block of
`_execute_tool`, producing the `(result, error, is_error)` triple. -/
def runToolFn (f : ToolFn) (name : String) (args : Args) :
    Option String × Option String × Bool :=
  match f args with
  | .ok s => (Option.some s, Option.none, false)
  | .typeErr e =>
      (Option.none,
       Option.some ("Error executing tool '" ++ name ++
         "': Invalid arguments provided by LLM. Details: " ++ e), true)
  | .exn e =>
      (Option.none,
       Option.some ("Error executing tool '" ++ name ++ "': " ++ e), true)

/-- `BaseAgent._execute_tool`, instrumented with its event trace.  The value
component is exactly the `ToolResult` the Python method returns. -/
def executeToolTr (env : AgentEnv) (tc : ToolCall) : ToolResult × List Event :=
  match env.tools tc.name with
  | Option.none =>
      let err :=
        if tc.name ∈ env.allowed then
          "Tool '" ++ tc.name ++ "' is allowed for agent '" ++ env.agentName ++
            "' but has no implementation found in registry."
        else
          "Tool '" ++ tc.name ++ "' not available or not allowed for agent '" ++
            env.agentName ++ "'."
      (mkToolResult tc.id tc.name Option.none (Option.some err) true, [])
  | Option.some f =>
      if tc.name ∈ env.highRisk then
        if ask_confirmation_async env tc.name tc.arguments then
          let (res, err, ie) := runToolFn f tc.name tc.arguments
          (mkToolResult tc.id tc.name res err ie,
           [.confirmAsked tc.name tc.arguments, .toolInvoked tc.name tc.arguments])
        else
          (mkToolResult tc.id tc.name
            (Option.some ("Operation cancelled by user for tool: " ++ tc.name ++ "."))
            Option.none false,
           [.confirmAsked tc.name tc.arguments])
      else
        let (res, err, ie) := runToolFn f tc.name tc.arguments
        (mkToolResult tc.id tc.name res err ie, [.toolInvoked tc.name tc.arguments])

/-- `BaseAgent._execute_tool`: the returned `ToolResult` alone. -/
def execute_tool (env : AgentEnv) (tc : ToolCall) : ToolResult :=
  (executeToolTr env tc).1

/-- The concurrent dispatch of one turn's tool calls (`agent.py` lines
367-369): one task per call, collected with `asyncio.gather`, which returns
results positionally in task-creation order regardless of the order in which
the tasks complete.  Each task's result is a function of its own call only,
so no completion interleaving can change this list. -/
def dispatchTools (env : AgentEnv) (calls : List ToolCall) : List ToolResult :=
  calls.map (execute_tool env)

/-! ## The agent execution loop (`BaseAgent.run`, `agent.py` lines 267-398)

State loading/saving is file I/O outside the loop and does not influence any
of the claims; the previously loaded history enters the model as the
`history0` argument.  The provider adapter contract guarantees
`send_message` never raises (all vendor errors are returned as text), so the
`except` arm of the loop body is unreachable in the model. -/

/-- What one `send_message` call returns, together with the token usage the
provider reports for it (`get_last_token_usage`). -/
structure ProviderReply where
  text : Option String
  toolCalls : Option (List ToolCall)
  promptToks : Option Nat
  complToks : Option Nat

/-- An element of `current_prompt_parts`: the initial user string, or a
`ToolResult` fed back to the model. -/
inductive PromptPart where
  | text : String → PromptPart
  | result : ToolResult → PromptPart
deriving DecidableEq, Repr

/-- The environment of one `run` invocation: `exec` is the (virtual)
`_execute_tool` method, `reply` gives the provider's answer to the n-th
`send_message` call (numbered from 0) as a function of the parts sent, and
the two limits are `settings.MAX_GLOBAL_TOKENS` /
`settings.WARN_TOKEN_THRESHOLD`. -/
structure RunEnv where
  exec : ToolCall → ToolResult
  reply : Nat → List PromptPart → ProviderReply
  maxGlobalTokens : Nat
  warnThreshold : Nat

/-- Mutable state of the loop: the history, the two cumulative token
counters, and the log of parts given to each provider call (its length is
the number of provider calls issued). -/
structure LoopState where
  history : List ChatMessage
  pt : Nat
  ct : Nat
  sent : List (List PromptPart)

/-- One iteration of the `while tool_round < max_tool_rounds` body, with the
already-incremented `tool_round` in `round` and the continuation `cont`
standing for the remaining iterations.  Returns the final state, the final
value of `tool_round`, and `some r` when a `break` set `final_response := r`. -/
def runLoopBody (env : RunEnv)
    (cont : LoopState → List PromptPart → LoopState × Nat × Option String)
    (round : Nat) (st : LoopState) (parts : List PromptPart) :
    LoopState × Nat × Option String :=
  -- token quota check before the model call
  if 0 < env.maxGlobalTokens ∧ env.maxGlobalTokens ≤ st.pt + st.ct then
    (st, round, Option.some "[Error: Token quota exceeded.]")
  else
    let r := env.reply st.sent.length parts
    let st := { st with
      sent := st.sent ++ [parts],
      pt := st.pt + (r.promptToks.getD 0),
      ct := st.ct + (r.complToks.getD 0) }
    let tcs := r.toolCalls.getD []
    -- model_parts: text (if not None) then the tool-call list (if truthy)
    let modelParts : List MessagePart :=
      (match r.text with
        | Option.some t => [MessagePart.text t]
        | Option.none => []) ++
      (if tcs.isEmpty then [] else [MessagePart.list (tcs.map ToolItem.call)])
    if modelParts.isEmpty then
      (st, round,
       Option.some (match r.text with
         | Option.some t => t
         | Option.none => "[Error: LLM provided no response content.]"))
    else
      let st := { st with history := st.history ++ [⟨"assistant", modelParts, 0⟩] }
      if tcs.isEmpty then
        (st, round,
         Option.some (match r.text with
           | Option.some t => t
           | Option.none => "[Agent finished without a final text response]"))
      else
        let results := tcs.map env.exec
        let st :=
          if results.isEmpty then st
          else { st with
            history := st.history ++ [⟨"tool", [MessagePart.list (results.map ToolItem.result)], 0⟩] }
        cont st (results.map PromptPart.result)

/-- The full `while` loop, structured on the number of remaining rounds. -/
def runLoop (env : RunEnv) : Nat → Nat → LoopState → List PromptPart →
    LoopState × Nat × Option String
  | 0, round, st, _ => (st, round, Option.none)
  | fuel + 1, round, st, parts =>
      runLoopBody env (fun st' parts' => runLoop env fuel (round + 1) st' parts')
        (round + 1) st parts

/-- What `run` produces: the returned string, plus the observable state used
by the claims (parts of each provider call, final history). -/
structure RunResult where
  response : String
  sent : List (List PromptPart)
  history : List ChatMessage

/-- `BaseAgent.run`.  `pt0`/`ct0` are the cumulative token counters of the
agent instance when `run` starts (they are not reset by `run`), `history0`
is the loaded (or empty) prior history. -/
def BaseAgent_run (env : RunEnv) (pt0 ct0 : Nat) (history0 : List ChatMessage)
    (user_prompt : String) : RunResult :=
  let hist := history0 ++ [⟨"user", [MessagePart.text user_prompt], 0⟩]
  let max_tool_rounds := 10
  let (st, round, res) :=
    runLoop env max_tool_rounds 0 ⟨hist, pt0, ct0, []⟩ [PromptPart.text user_prompt]
  let final_response :=
    match res with
    | Option.some r => r
    | Option.none => "[Agent run completed without a final text response]"
  let final_response :=
    if max_tool_rounds ≤ round ∧
        final_response = "[Agent run completed without a final text response]" then
      -- scan reversed history for the first assistant message; its
      -- get_text_content() is a str, never None, so the dead None-check in
      -- the source always passes and that message is annotated
      match st.history.reverse.find? (fun m => m.role == "assistant") with
      | Option.some m => m.get_text_content ++ "\n[Warning: Agent reached max tool rounds]"
      | Option.none => final_response
    else final_response
  ⟨final_response, st.sent, st.history⟩

/-! ## The `read_file` tool (`tools/filesystem.py` lines 18-43) -/

/-- Outcome of `Path.read_text(errors='replace')`. -/
inductive ReadOutcome where
  | ok (content : String)
  | permissionDenied
  | failure (e : String)
deriving DecidableEq, Repr

/-- The file system as `read_file` observes it: `Path(p).resolve()`,
`Path(p).is_file()` and `Path(p).read_text()` (the latter with its two
caught exception classes). -/
structure FileSys where
  resolve : String → String
  isFile : String → Bool
  readText : String → ReadOutcome

/-- `filesystem.read_file`: the returned string. -/
def read_file (fs : FileSys) (file_path : String) : String :=
  let target := fs.resolve file_path
  if !(fs.isFile target) then
    "Error: File not found: " ++ file_path ++ " (Resolved: " ++ target ++ ")"
  else
    match fs.readText target with
    | .ok content =>
        "Content of '" ++ file_path ++ "' (Size: " ++ toString content.length ++
          " bytes):\n```\n" ++ content ++ "\n```"
    | .permissionDenied =>
        "Error: Permission denied reading file '" ++ file_path ++ "'."
    | .failure e =>
        "Error reading file '" ++ file_path ++ "': " ++ e

/-- `read_file` as a registered tool callable: the keyword binding
`tool_function(**args)` extracts `file_path` (a missing or non-string value
raises `TypeError` at the call site). -/
def read_file_tool (fs : FileSys) : ToolFn := fun args =>
  match argGet args "file_path" with
  | Option.some (.str p) => .ok (read_file fs p)
  | _ => .typeErr "read_file() missing 1 required positional argument: 'file_path'"

/-! ## The Controller (`core/controller.py`) -/

/-- What a specialist agent's `run` does for a given prompt: returns its
final text, or raises. -/
inductive SpecOutcome where
  | ok (s : String)
  | exn (e : String)

/-- The Controller's environment: `self.specialist_agents` as an ordered
name-to-agent mapping (Python dicts preserve insertion order, which fixes
the order of `keys()` in error messages). -/
structure ControllerEnv where
  specialists : List (String × (String → SpecOutcome))

/-- Observable event: a specialist agent's `run` was invoked. -/
inductive CEvent where
  | specialistRun (name prompt : String)
deriving DecidableEq, Repr

/-- `ControllerAgent._delegate_task_impl`, instrumented with the specialist
invocations it performs. -/
def delegate_task_impl (env : ControllerEnv) (agent_name user_prompt : String) :
    String × List CEvent :=
  match env.specialists.lookup agent_name with
  | Option.some specialist =>
      (match specialist user_prompt with
       | .ok r => (r, [.specialistRun agent_name user_prompt])
       | .exn e =>
          ("[Error: An unexpected error occurred while running specialist agent '" ++
             agent_name ++ "': " ++ e ++ "]",
           [.specialistRun agent_name user_prompt]))
  | Option.none =>
      ("[Error: Specialist agent '" ++ agent_name ++ "' not found. Please choose one of: " ++
         String.intercalate ", " (env.specialists.map Prod.fst) ++ "]",
       [])

/-- The `TypeError`-raising argument validation at the top of the
`delegate_task` arm of `ControllerAgent._execute_tool`. -/
def checkDelegateArgs (args : Args) : Except String (String × String) :=
  match argGet args "agent_name" with
  | Option.some (.str an) =>
      if an = "" then
        Except.error "Missing or invalid 'agent_name' argument for delegation."
      else
        match argGet args "user_prompt" with
        | Option.some (.str up) => Except.ok (an, up)
        | _ => Except.error "Missing or invalid 'user_prompt' argument for delegation."
  | _ => Except.error "Missing or invalid 'agent_name' argument for delegation."

/-- `ControllerAgent._execute_tool`, instrumented with specialist
invocations. -/
def controller_execute_tool (env : ControllerEnv) (tc : ToolCall) :
    ToolResult × List CEvent :=
  if tc.name = "delegate_task" then
    match checkDelegateArgs tc.arguments with
    | Except.error e =>
        (mkToolResult tc.id tc.name Option.none
          (Option.some ("Internal delegation error: Invalid arguments provided. " ++ e))
          true, [])
    | Except.ok (an, up) =>
        let (result_str, evs) := delegate_task_impl env an up
        let is_delegation_error := pyStartswith result_str "[Error:"
        (mkToolResult tc.id tc.name
          (if is_delegation_error then Option.none else Option.some result_str)
          (if is_delegation_error then Option.some result_str else Option.none)
          is_delegation_error, evs)
  else
    (mkToolResult tc.id tc.name Option.none
      (Option.some ("Controller received unexpected tool call '" ++ tc.name ++
        "'. Only 'delegate_task' is supported.")) true, [])

/-! ## Anthropic adapter (`llm_providers/anthropic.py`) -/

/-- One Anthropic content block. -/
inductive ABlock where
  | text (t : String)
  | toolUse (id name : String) (input : Args)
  | toolResult (tool_use_id : String) (content : String)
deriving DecidableEq, Repr

/-- One entry of the Anthropic message list. -/
structure AMsg where
  role : String
  content : List ABlock
deriving DecidableEq, Repr

/-- Conversion of one list element in an assistant tool-call part: a
`ToolResult` object there would hit the missing `tc.arguments` attribute
(`AttributeError`), modelled as `none`. -/
def convertCallItem : ToolItem → Option ABlock
  | .call tc => Option.some (.toolUse tc.id tc.name tc.arguments)
  | .result _ => Option.none

/-- The string content of one `tool_result` block
(`str(tr.error) if tr.error is not None else ""` when `is_error`, else the
symmetric `result` form). -/
def toolResultContent (tr : ToolResult) : String :=
  if tr.is_error then
    match tr.error with
    | Option.some e => e
    | Option.none => ""
  else
    match tr.result with
    | Option.some r => r
    | Option.none => ""

/-- Conversion of one list element in a tool-result part: a `ToolCall`
object there would hit the missing `tr.is_error` attribute
(`AttributeError`), modelled as `none`. -/
def convertResultItem : ToolItem → Option ABlock
  | .result tr => Option.some (.toolResult tr.id (toolResultContent tr))
  | .call _ => Option.none

/-- Conversion of one `ChatMessage` part to Anthropic content blocks
(`_convert_history_to_anthropic`, inner `for part in msg.parts` loop).
`origRole` is `msg.role`; `aRole` is the mapped Anthropic role. -/
def convertPart (origRole aRole : String) : MessagePart → Option (List ABlock)
  | .text s => Option.some (if pyStrip s = "" then [] else [.text s])
  | .list [] => Option.some []
  | .list (items@(ToolItem.call _ :: _)) =>
      if origRole = "assistant" ∨ origRole = "model" then items.mapM convertCallItem
      else Option.some []   -- warned and skipped
  | .list (items@(ToolItem.result _ :: _)) =>
      if aRole = "user" then items.mapM convertResultItem
      else Option.some []   -- logged and skipped

/-- All parts of one message, concatenated. -/
def convertParts (origRole aRole : String) (parts : List MessagePart) :
    Option (List ABlock) :=
  (parts.mapM (convertPart origRole aRole)).map List.flatten

/-- Processing of one history message: map the role
(`model` to `assistant`, `tool` to `user`, `system` skipped), convert the
parts, skip block-less messages, and either merge into the previous message
(same role) or append a fresh one.  The accumulator keeps the output in
reverse order; `lastRole` mirrors the `last_role` variable of the source. -/
def convStep (st : List AMsg × Option String) (msg : ChatMessage) :
    Option (List AMsg × Option String) :=
  let (acc, lastRole) := st
  if msg.role = "system" then Option.some (acc, lastRole)
  else
    let aRole :=
      if msg.role = "model" then "assistant"
      else if msg.role = "tool" then "user"
      else msg.role
    match convertParts msg.role aRole msg.parts with
    | Option.none => Option.none
    | Option.some blocks =>
        if blocks.isEmpty then Option.some (acc, lastRole)
        else
          match acc, lastRole with
          | m :: rest, Option.some lr =>
              if lr = aRole then
                Option.some ({ m with content := m.content ++ blocks } :: rest, lastRole)
              else
                Option.some (⟨aRole, blocks⟩ :: m :: rest, Option.some aRole)
          | _, _ => Option.some (⟨aRole, blocks⟩ :: acc, Option.some aRole)

/-- First role appearing twice in a row (the `for i in range(len-1)`
alternation scans). -/
def firstConsecDupRole : List AMsg → Option String
  | a :: b :: rest =>
      if a.role = b.role then Option.some a.role
      else firstConsecDupRole (b :: rest)
  | _ => Option.none

/-- `AnthropicProvider._convert_history_to_anthropic`; `none` models a
raised exception, `some []` is also what the two final defensive validation
scans return on an invalid result. -/
def convert_history_to_anthropic (history : List ChatMessage) : Option (List AMsg) :=
  (history.foldlM convStep ([], Option.none)).map fun st =>
    let l := st.1.reverse
    match l with
    | m :: _ =>
        if m.role = "assistant" then []
        else if (firstConsecDupRole l).isSome then []
        else l
    | [] => l

/-- What `AnthropicProvider.send_message` does before reaching the network:
an explicit error return, a raised `ValueError`, or an API call with the
assembled message list. -/
inductive SendOutcome where
  | error (text : String)
  | callApi (messages : List AMsg)
  | raised (msg : String)
deriving DecidableEq, Repr

/-- The new-message blocks built from `prompt_parts` (dispatch on the first
part: a string prompt, or a batch of tool results). -/
def buildNewBlocks : List PromptPart → Option (List ABlock)
  | [] => Option.none   -- raise ValueError
  | parts@(PromptPart.text _ :: _) =>
      let user_content := String.intercalate "\n"
        (parts.filterMap fun p => match p with
          | PromptPart.text s => Option.some s
          | PromptPart.result _ => Option.none)
      Option.some (if pyStrip user_content = "" then [] else [.text (pyStrip user_content)])
  | parts@(PromptPart.result _ :: _) =>
      Option.some (parts.filterMap fun p => match p with
        | PromptPart.result tr => Option.some (.toolResult tr.id (toolResultContent tr))
        | PromptPart.text _ => Option.none)   -- warned and ignored

/-- Appending (or merging) the new message into the session and filtering
out content-less messages: the `messages_to_send` list of `send_message`. -/
def assembleMessages (chat_session : List AMsg) (parts : List PromptPart) :
    Option (List AMsg) :=
  (buildNewBlocks parts).map fun blocks =>
    let session :=
      if blocks.isEmpty then chat_session
      else
        match chat_session.getLast? with
        | Option.some last =>
            if last.role = "user" then
              chat_session.dropLast ++ [{ last with content := last.content ++ blocks }]
            else chat_session ++ [⟨"user", blocks⟩]
        | Option.none => chat_session ++ [⟨"user", blocks⟩]
    session.filter (fun m => !m.content.isEmpty)

/-- The pre-flight checks of `send_message` (lines 254-278): empty history
and role alternation, each returning a bracketed error text instead of
calling the API. -/
def send_message_check (chat_session : List AMsg) (parts : List PromptPart) :
    SendOutcome :=
  match assembleMessages chat_session parts with
  | Option.none => .raised "Cannot send empty prompt parts to Anthropic."
  | Option.some ms =>
      if ms.isEmpty then .error "[Error: Invalid conversation history state (empty).]"
      else
        match firstConsecDupRole ms with
        | Option.some r =>
            .error ("[Error: Invalid history state (consecutive roles '" ++ r ++
              "'). Cannot send message.]")
        | Option.none => .callApi ms


/-! ## Supporting lemmas -/

theorem pyStartswith_append (a b pre : String) (h : pyStartswith a pre = true) :
    pyStartswith (a ++ b) pre = true := by
  unfold pyStartswith at *
  simp only [String.data_append, List.isPrefixOf_iff_prefix] at *
  exact h.trans (List.prefix_append _ _)

/-- Every return path of `_execute_tool` builds its `ToolResult` with
`id=call_id`. -/
theorem execute_tool_id (env : AgentEnv) (tc : ToolCall) :
    (execute_tool env tc).id = tc.id := by
  unfold execute_tool executeToolTr
  cases henv : env.tools tc.name with
  | none => simp [mkToolResult]
  | some f =>
      by_cases hr : tc.name ∈ env.highRisk <;>
        simp only [hr, if_true, if_false, ite_true, ite_false, runToolFn] <;>
        split <;> simp [mkToolResult]

/-! ## Claim C1: tool dispatch preserves count and call ids -/

/-- C1.  For every batch of tool calls dispatched in one turn, the dispatch
produces exactly as many results, positionally carrying exactly the input
call ids (so, given per-turn-unique ids, each result's id matches exactly
one originating call — no duplication, no loss).  `asyncio.gather` orders
its result list by task creation order and each task's result depends only
on its own call, so no completion interleaving is observable; the
environment `env` (tool behaviours, operator answers) is universally
quantified. -/
theorem dispatch_results_correlate (env : AgentEnv) (calls : List ToolCall)
    (hids : (calls.map ToolCall.id).Nodup) :
    (dispatchTools env calls).length = calls.length ∧
    (dispatchTools env calls).map ToolResult.id = calls.map ToolCall.id ∧
    ∀ r ∈ dispatchTools env calls, ∃! c, c ∈ calls ∧ c.id = r.id := by
  have hmap : (dispatchTools env calls).map ToolResult.id = calls.map ToolCall.id := by
    unfold dispatchTools
    rw [List.map_map]
    exact List.map_congr_left fun c _ => execute_tool_id env c
  refine ⟨by simp [dispatchTools], hmap, ?_⟩
  intro r hr
  obtain ⟨c, hc, hrc⟩ := List.mem_map.mp hr
  refine ⟨c, ⟨hc, by rw [← hrc]; exact (execute_tool_id env c).symm⟩, ?_⟩
  rintro c' ⟨hc', hid'⟩
  have hcc : c.id = r.id := by rw [← hrc]; exact (execute_tool_id env c).symm
  exact List.inj_on_of_nodup_map hids hc' hc (by rw [hid', hcc])

def envW1 : AgentEnv :=
  { agentName := "W"
    tools := fun _ => Option.none
    allowed := []
    highRisk := []
    confirm := fun _ _ => true }

theorem dispatch_results_correlate_witness :
    ((dispatchTools envW1 [⟨"a", "t1", []⟩, ⟨"b", "t2", []⟩]).map ToolResult.id
        = ["a", "b"]) ∧
    (dispatchTools envW1 [⟨"a", "t1", []⟩, ⟨"b", "t2", []⟩]).length = 2 := by
  have h := dispatch_results_correlate envW1 [⟨"a", "t1", []⟩, ⟨"b", "t2", []⟩] (by decide)
  exact ⟨h.2.1, h.1⟩

/-! ## Claims C4, C5: the confirmation gate -/

/-- The event trace of one `_execute_tool` call, by cases. -/
theorem executeToolTr_trace (env : AgentEnv) (tc : ToolCall) :
    (executeToolTr env tc).2 =
      match env.tools tc.name with
      | Option.none => []
      | Option.some _ =>
          if tc.name ∈ env.highRisk then
            if ask_confirmation_async env tc.name tc.arguments then
              [Event.confirmAsked tc.name tc.arguments,
               Event.toolInvoked tc.name tc.arguments]
            else [Event.confirmAsked tc.name tc.arguments]
          else [Event.toolInvoked tc.name tc.arguments] := by
  unfold executeToolTr
  cases env.tools tc.name with
  | none => rfl
  | some f =>
      by_cases hr : tc.name ∈ env.highRisk
      · by_cases hc : ask_confirmation_async env tc.name tc.arguments <;>
          simp [hr, hc]
      · simp [hr]

/-- C4.  For a tool name in the configured high-risk set, `_execute_tool`
calls the confirmation gate (`ask_confirmation_async`) before ever invoking
the tool's underlying callable — the gate call is present whenever the tool
resolves, and every callable invocation in the trace is strictly preceded by
the gate call; for a name not in the set, the gate is never invoked
(auto-approved path). -/
theorem high_risk_gate_policy (env : AgentEnv) (tc : ToolCall) :
    (tc.name ∈ env.highRisk →
      ((env.tools tc.name).isSome →
        Event.confirmAsked tc.name tc.arguments ∈ (executeToolTr env tc).2) ∧
      (∀ (j : Nat) (n : String) (a : Args),
        ((executeToolTr env tc).2)[j]? = Option.some (Event.toolInvoked n a) →
        ∃ i : Nat, i < j ∧
          ((executeToolTr env tc).2)[i]? =
            Option.some (Event.confirmAsked tc.name tc.arguments))) ∧
    (tc.name ∉ env.highRisk →
      ∀ n a, Event.confirmAsked n a ∉ (executeToolTr env tc).2) := by
  rw [executeToolTr_trace]
  cases htools : env.tools tc.name with
  | none =>
      refine ⟨fun hr => ⟨fun hsome => by simp at hsome, fun j n a hj => by simp at hj⟩,
        fun _ n a h => by simp at h⟩
  | some f =>
      by_cases hr : tc.name ∈ env.highRisk
      · refine ⟨fun _ => ⟨fun _ => ?_, fun j n a hj => ?_⟩, fun hnr => absurd hr hnr⟩
        · by_cases hc : ask_confirmation_async env tc.name tc.arguments <;>
            simp [hr, hc]
        · by_cases hc : ask_confirmation_async env tc.name tc.arguments <;>
            rw [if_pos hr] at hj
          · rw [if_pos hc] at hj
            rcases j with _ | _ | j
            · simp at hj
            · exact ⟨0, by omega, by simp [hr, hc]⟩
            · simp at hj
          · rw [if_neg hc] at hj
            rcases j with _ | j <;> simp at hj
      · refine ⟨fun h => absurd h hr, fun _ n a => ?_⟩
        simp [hr]

def envW4 : AgentEnv :=
  { agentName := "W"
    tools := fun n =>
      if n = "run_shell_command" then Option.some (fun _ => ToolOutcome.ok "done")
      else Option.none
    allowed := ["run_shell_command"]
    highRisk := ["run_shell_command"]
    confirm := fun _ _ => true }

def tcW4 : ToolCall := ⟨"w4", "run_shell_command", []⟩

theorem high_risk_gate_policy_witness :
    Event.confirmAsked "run_shell_command" [] ∈ (executeToolTr envW4 tcW4).2 :=
  ((high_risk_gate_policy envW4 tcW4).1 (by decide)).1 (by rfl)

/-- C5.  A high-risk tool call declined at the confirmation gate yields a
`ToolResult` with `is_error = False` whose `result` text communicates
cancellation by the user, with no `error` set and without the tool's
callable ever being invoked. -/
theorem declined_confirmation_is_noop (env : AgentEnv) (tc : ToolCall) (f : ToolFn)
    (hf : env.tools tc.name = Option.some f)
    (hr : tc.name ∈ env.highRisk)
    (hd : env.confirm tc.name tc.arguments = false) :
    execute_tool env tc =
      { id := tc.id, name := tc.name,
        result := Option.some ("Operation cancelled by user for tool: " ++ tc.name ++ "."),
        error := Option.none, is_error := false } ∧
    (execute_tool env tc).is_error = false ∧
    ∀ (n : String) (a : Args), Event.toolInvoked n a ∉ (executeToolTr env tc).2 := by
  have hask : ask_confirmation_async env tc.name tc.arguments = false := by
    unfold ask_confirmation_async; rw [if_pos hr]; exact hd
  have h1 : execute_tool env tc =
      { id := tc.id, name := tc.name,
        result := Option.some ("Operation cancelled by user for tool: " ++ tc.name ++ "."),
        error := Option.none, is_error := false } := by
    unfold execute_tool executeToolTr
    rw [hf]
    simp [hr, hask, mkToolResult]
  refine ⟨h1, by rw [h1], ?_⟩
  intro n a
  rw [executeToolTr_trace, hf]
  simp [hr, hask]

def envW5 : AgentEnv :=
  { agentName := "W"
    tools := fun n =>
      if n = "edit_file" then Option.some (fun _ => ToolOutcome.ok "edited")
      else Option.none
    allowed := ["edit_file"]
    highRisk := ["edit_file"]
    confirm := fun _ _ => false }

def tcW5 : ToolCall := ⟨"w5", "edit_file", []⟩

theorem declined_confirmation_is_noop_witness :
    (execute_tool envW5 tcW5).is_error = false ∧
    (execute_tool envW5 tcW5).result =
      Option.some "Operation cancelled by user for tool: edit_file." :=
  ⟨(declined_confirmation_is_noop envW5 tcW5 (fun _ => ToolOutcome.ok "edited")
      rfl (by decide) rfl).2.1,
   by rw [(declined_confirmation_is_noop envW5 tcW5 (fun _ => ToolOutcome.ok "edited")
        rfl (by decide) rfl).1]; rfl⟩

/-! ## Claims C2, C3: quota and turn-cap behaviour of the run loop -/

/-- The loop body only ever appends to the history and to the send log. -/
theorem runLoopBody_extends (env : RunEnv)
    (cont : LoopState → List PromptPart → LoopState × Nat × Option String)
    (round : Nat) (st : LoopState) (parts : List PromptPart)
    (hcont : ∀ st' parts', st'.history <+: (cont st' parts').1.history ∧
      st'.sent <+: (cont st' parts').1.sent) :
    st.history <+: (runLoopBody env cont round st parts).1.history ∧
    st.sent <+: (runLoopBody env cont round st parts).1.sent := by
  unfold runLoopBody
  by_cases hq : 0 < env.maxGlobalTokens ∧ env.maxGlobalTokens ≤ st.pt + st.ct
  · rw [if_pos hq]; exact ⟨List.prefix_refl _, List.prefix_refl _⟩
  · rw [if_neg hq]
    rcases htc : (env.reply st.sent.length parts).toolCalls with _ | tcs
    · rcases htext : (env.reply st.sent.length parts).text with _ | t <;>
        simp [htc, htext]
    · rcases tcs with _ | ⟨c, tcs⟩
      · rcases htext : (env.reply st.sent.length parts).text with _ | t <;>
          simp [htc, htext]
      · rcases htext : (env.reply st.sent.length parts).text with _ | t <;>
          (simp only [htc, htext, Option.getD_some]
           refine ⟨List.IsPrefix.trans ?_ (hcont _ _).1,
               List.IsPrefix.trans ?_ (hcont _ _).2⟩ <;>
             simp [List.append_assoc])

/-- Same monotonicity for the whole loop. -/
theorem runLoop_extends (env : RunEnv) (fuel : Nat) :
    ∀ (round : Nat) (st : LoopState) (parts : List PromptPart),
      st.history <+: (runLoop env fuel round st parts).1.history ∧
      st.sent <+: (runLoop env fuel round st parts).1.sent := by
  induction fuel with
  | zero => intro round st parts; simp [runLoop]
  | succ n ih =>
      intro round st parts
      exact runLoopBody_extends env _ _ st parts fun st' parts' => ih _ st' parts'

/-- C2.  If, before a turn's model call, the agent's cumulative
prompt-plus-completion token counters already meet or exceed a configured
positive hard quota, `run` terminates without issuing any provider call and
returns the quota-exceeded indicator string. -/
theorem quota_exceeded_stops_run (env : RunEnv) (pt0 ct0 : Nat)
    (history0 : List ChatMessage) (prompt : String)
    (hp : 0 < env.maxGlobalTokens)
    (hge : env.maxGlobalTokens ≤ pt0 + ct0) :
    (BaseAgent_run env pt0 ct0 history0 prompt).response =
      "[Error: Token quota exceeded.]" ∧
    (BaseAgent_run env pt0 ct0 history0 prompt).sent = [] := by
  have hstep :
      runLoop env 10 0
        ⟨history0 ++ [⟨"user", [MessagePart.text prompt], 0⟩], pt0, ct0, []⟩
        [PromptPart.text prompt] =
      (⟨history0 ++ [⟨"user", [MessagePart.text prompt], 0⟩], pt0, ct0, []⟩, 1,
        Option.some "[Error: Token quota exceeded.]") := by
    show runLoopBody env _ 1 _ _ = _
    unfold runLoopBody
    exact if_pos ⟨hp, hge⟩
  unfold BaseAgent_run
  dsimp only
  rw [hstep]
  simp

def envW2 : RunEnv :=
  { exec := fun tcall => mkToolResult tcall.id tcall.name (Option.some "x") Option.none false
    reply := fun _ _ => ⟨Option.some "hi", Option.none, Option.some 1, Option.some 1⟩
    maxGlobalTokens := 5
    warnThreshold := 4 }

theorem quota_exceeded_stops_run_witness :
    (BaseAgent_run envW2 3 2 [] "go").response = "[Error: Token quota exceeded.]" ∧
    (BaseAgent_run envW2 3 2 [] "go").sent = [] :=
  quota_exceeded_stops_run envW2 3 2 [] "go" (by decide) (by decide)

/-- The provider behaviour of the C3 scenario: the model returns a tool call
on every turn; only the first turn also carries text (`"A"`). -/
def tcLoop : ToolCall := ⟨"c1", "noop", []⟩

def envC3 : RunEnv :=
  { exec := fun tcall => mkToolResult tcall.id tcall.name (Option.some "ok") Option.none false
    reply := fun n _ =>
      if n = 0 then ⟨Option.some "A", Option.some [tcLoop], Option.some 1, Option.some 1⟩
      else ⟨Option.none, Option.some [tcLoop], Option.some 1, Option.some 1⟩
    maxGlobalTokens := 0
    warnThreshold := 0 }

/-- C3 (code bug).  With a model that returns tool calls on every turn, the
loop does stop after exactly the 10-round cap — but the fall-back response is
the `get_text_content()` of the *most recent* assistant message annotated
with the warning, because `get_text_content()` never returns Python `None`
and the `if text_content is not None` check in `agent.py` line 388 therefore
always passes on the first assistant message encountered in the reversed
history.  Here the last assistant text present in history is `"A"` (turn 1),
yet the run returns the warning annotation of an empty string, neither the
annotated `"A"` nor the generic incomplete-run message. -/
theorem max_rounds_fallback_ignores_history_text :
    (BaseAgent_run envC3 0 0 [] "go").sent.length = 10 ∧
    (BaseAgent_run envC3 0 0 [] "go").response =
      "\n[Warning: Agent reached max tool rounds]" ∧
    (BaseAgent_run envC3 0 0 [] "go").response ≠
      "A\n[Warning: Agent reached max tool rounds]" ∧
    (BaseAgent_run envC3 0 0 [] "go").response ≠
      "[Agent run completed without a final text response]" ∧
    ChatMessage.mk "assistant" [MessagePart.text "A",
      MessagePart.list [ToolItem.call tcLoop]] 0 ∈ (BaseAgent_run envC3 0 0 [] "go").history := by
  refine ⟨rfl, rfl, by decide, by decide, by decide⟩

/-! ## Claim C7: durable-layout round trip -/

/-- A list part whose elements are all tool calls is the image of a call
list. -/
theorem all_calls_eq_map (items : List ToolItem)
    (h : items.all (fun i => match i with
      | ToolItem.call _ => true
      | ToolItem.result _ => false) = true) :
    ∃ cs : List ToolCall, items = cs.map ToolItem.call := by
  induction items with
  | nil => exact ⟨[], rfl⟩
  | cons i rest ih =>
      simp only [List.all_cons, Bool.and_eq_true] at h
      obtain ⟨cs, hcs⟩ := ih h.2
      cases i with
      | call c => exact ⟨c :: cs, by simp [hcs]⟩
      | result r => simp at h

/-- Serializing a pure call batch and reading it back with
`ToolCall.from_dict` restores the calls. -/
theorem mapM_from_dict_calls (cs : List ToolCall) :
    ((cs.map (fun c => SDict.callD c.id c.name c.arguments)).mapM ToolCall.from_dict)
      = Option.some cs := by
  induction cs with
  | nil => rfl
  | cons c rest ih =>
      rw [List.map_cons, List.mapM_cons, ih]
      rfl

/-- Reading a serialized valid `ToolResult` back restores it. -/
theorem from_dict_to_dict_result (r : ToolResult) (h : r.valid = true) :
    ToolResult.from_dict (ToolItem.to_dict (ToolItem.result r)) = r := by
  obtain ⟨i, n, res, err, ie⟩ := r
  unfold ToolResult.valid at h
  cases err with
  | none => simp [ToolItem.to_dict, ToolResult.from_dict, mkToolResult]
  | some e =>
      simp only at h
      simp [ToolItem.to_dict, ToolResult.from_dict, mkToolResult, h]

/-- A result-batch part maps back to itself element-wise when every element
is a valid tool result. -/
theorem map_from_to_results (items : List ToolItem)
    (h : items.all (fun i => match i with
      | ToolItem.call _ => false
      | ToolItem.result r => r.valid) = true) :
    items.map (fun i => ToolItem.result (ToolResult.from_dict i.to_dict)) = items := by
  induction items with
  | nil => rfl
  | cons i rest ih =>
      simp only [List.all_cons, Bool.and_eq_true] at h
      cases i with
      | call c => simp at h
      | result r =>
          simp only [List.map_cons, ih h.2, List.cons.injEq, and_true]
          rw [from_dict_to_dict_result r h.1]

/-- One well-formed part round-trips through the tagged JSON layout. -/
theorem part_roundtrip (p : MessagePart) (h : p.wf = true) :
    p.serialize.deserialize = Option.some p := by
  cases p with
  | text s => rfl
  | list items =>
      cases items with
      | nil => rfl
      | cons i rest =>
          unfold MessagePart.wf at h
          rw [Bool.or_eq_true] at h
          cases i with
          | call c =>
              rcases h with h1 | h2
              · obtain ⟨cs, hcs⟩ := all_calls_eq_map _ h1
                rw [hcs]
                cases cs with
                | nil => simp at hcs
                | cons c0 cs' =>
                    have hmaps :
                        ((ToolItem.call c0).to_dict ::
                            (cs'.map ToolItem.call).map ToolItem.to_dict)
                          = (c0 :: cs').map
                              (fun c => SDict.callD c.id c.name c.arguments) := by
                      simp [List.map_map, ToolItem.to_dict, Function.comp]
                    simp only [List.map_cons, MessagePart.serialize, SPart.deserialize]
                    rw [hmaps, mapM_from_dict_calls]
                    rfl
              · simp at h2
          | result r =>
              rcases h with h1 | h2
              · simp at h1
              · simp only [MessagePart.serialize, SPart.deserialize, List.map_map,
                  Option.some.injEq, MessagePart.list.injEq]
                exact map_from_to_results _ h2

/-- One well-formed message round-trips exactly. -/
theorem message_roundtrip (m : ChatMessage) (h : m.wf = true) :
    ChatMessage.from_dict m.to_dict = Option.some m := by
  obtain ⟨role, parts, ts⟩ := m
  unfold ChatMessage.wf at h
  unfold ChatMessage.to_dict ChatMessage.from_dict
  simp only
  have hparts : (parts.map MessagePart.serialize).mapM SPart.deserialize
      = Option.some parts := by
    induction parts with
    | nil => rfl
    | cons p rest ih =>
        simp only [List.all_cons, Bool.and_eq_true] at h
        rw [List.map_cons, List.mapM_cons, part_roundtrip p h.1, ih h.2]
        rfl
  rw [hparts]
  rfl

/-- C7.  Serializing every message of a history whose parts are plain text,
tool-call batches, or (valid) tool-result batches with `ChatMessage.to_dict`
and deserializing with `ChatMessage.from_dict` restores the history exactly:
the same number of messages with, message for message, the same role,
timestamp and part content. -/
theorem history_roundtrip (h : List ChatMessage) (hwf : ∀ m ∈ h, m.wf = true) :
    (h.map ChatMessage.to_dict).mapM ChatMessage.from_dict = Option.some h := by
  induction h with
  | nil => rfl
  | cons m rest ih =>
      rw [List.map_cons, List.mapM_cons,
        message_roundtrip m (hwf m (List.mem_cons_self m rest)),
        ih fun m' hm' => hwf m' (List.mem_cons_of_mem m hm')]
      rfl

def historyW7 : List ChatMessage :=
  [⟨"user", [MessagePart.text "read the file"], 0⟩,
   ⟨"assistant", [MessagePart.text "on it",
      MessagePart.list [ToolItem.call ⟨"c1", "read_file", [("file_path", PyVal.str "/a")]⟩]], 1⟩,
   ⟨"tool", [MessagePart.list [ToolItem.result
      ⟨"c1", "read_file", Option.some "data", Option.none, false⟩]], 2⟩,
   ⟨"assistant", [MessagePart.list []], 3⟩]

theorem history_roundtrip_witness :
    (historyW7.map ChatMessage.to_dict).mapM ChatMessage.from_dict
      = Option.some historyW7 :=
  history_roundtrip historyW7 (by decide)

/-! ## Claim C8: `read_file` on a missing path -/

/-- With the quota disabled, a round that still has fuel always issues its
provider call. -/
theorem runLoop_sends_when_no_quota (env : RunEnv) (hq : env.maxGlobalTokens = 0)
    (fuel round : Nat) (st : LoopState) (parts : List PromptPart) :
    st.sent.length + 1 ≤ (runLoop env (fuel + 1) round st parts).1.sent.length := by
  have hnq : ¬(0 < env.maxGlobalTokens ∧ env.maxGlobalTokens ≤ st.pt + st.ct) := by
    rw [hq]; simp
  show st.sent.length + 1 ≤ (runLoopBody env _ _ st parts).1.sent.length
  unfold runLoopBody
  rw [if_neg hnq]
  rcases htc : (env.reply st.sent.length parts).toolCalls with _ | tcs
  · rcases htext : (env.reply st.sent.length parts).text with _ | t <;>
      simp [htc, htext]
  · rcases tcs with _ | ⟨c, tcs⟩
    · rcases htext : (env.reply st.sent.length parts).text with _ | t <;>
        simp [htc, htext]
    · rcases htext : (env.reply st.sent.length parts).text with _ | t <;>
        (simp only [htc, htext, Option.getD_some]
         refine le_trans ?_ (List.IsPrefix.length_le
           (runLoop_extends env fuel (round + 1) _ _).2)
         simp)

def fsC8 : FileSys :=
  { resolve := fun p => p
    isFile := fun _ => false
    readText := fun _ => ReadOutcome.ok "" }

def envC8 : AgentEnv :=
  { agentName := "TestAgent"
    tools := fun n =>
      if n = "read_file" then Option.some (read_file_tool fsC8) else Option.none
    allowed := ["read_file"]
    highRisk := []
    confirm := fun _ _ => true }

def tcC8 : ToolCall := ⟨"call-1", "read_file", [("file_path", PyVal.str "/no/such/file.txt")]⟩

/-- C8 (counterexample).  Invoking `read_file` on a non-existent path
returns a string beginning with `"Error:"`, but the `ToolResult` built by
`_execute_tool` has `is_error = False`, not `True` as the claim states:
dispatch treats any string returned by a tool as unconditional success. -/
theorem read_file_missing_not_flagged :
    pyStartswith ((execute_tool envC8 tcC8).result.getD "") "Error:" = true ∧
    ¬((execute_tool envC8 tcC8).is_error = true) := by decide

/-- C8 (amended).  For every invocation of `read_file` with a path to a
non-existent file, the tool returns a string beginning with `"Error:"`, the
`ToolResult` produced by dispatch carries that string as its `result` with
`is_error = False`, and the agent loop appends this result as a `tool`
message and continues (at least one further provider call) rather than
aborting. -/
theorem read_file_missing_is_soft_error (fs : FileSys) (env : RunEnv) (aenv : AgentEnv)
    (p prompt : String) (tc : ToolCall)
    (hfs : fs.isFile (fs.resolve p) = false)
    (htool : aenv.tools tc.name = Option.some (read_file_tool fs))
    (hnr : tc.name ∉ aenv.highRisk)
    (hargs : tc.arguments = [("file_path", PyVal.str p)])
    (hexec : env.exec = execute_tool aenv)
    (hreply : env.reply 0 [PromptPart.text prompt] =
      ⟨Option.none, Option.some [tc], Option.none, Option.none⟩)
    (hq : env.maxGlobalTokens = 0) :
    (execute_tool aenv tc).is_error = false ∧
    (execute_tool aenv tc).result = Option.some (read_file fs p) ∧
    pyStartswith (read_file fs p) "Error:" = true ∧
    (⟨"tool", [MessagePart.list [ToolItem.result (execute_tool aenv tc)]], 0⟩ : ChatMessage)
      ∈ (BaseAgent_run env 0 0 [] prompt).history ∧
    2 ≤ (BaseAgent_run env 0 0 [] prompt).sent.length := by
  have hexecr : execute_tool aenv tc =
      mkToolResult tc.id tc.name (Option.some (read_file fs p)) Option.none false := by
    unfold execute_tool executeToolTr
    rw [htool]
    simp [hnr, runToolFn, read_file_tool, hargs, argGet, List.lookup]
  have hrfe : read_file fs p =
      "Error: File not found: " ++ p ++ " (Resolved: " ++ fs.resolve p ++ ")" := by
    unfold read_file
    dsimp only
    rw [hfs]
    rfl
  have hrf : pyStartswith (read_file fs p) "Error:" = true := by
    rw [hrfe]
    exact pyStartswith_append _ _ _ (pyStartswith_append _ _ _
      (pyStartswith_append _ _ _ (pyStartswith_append _ _ _ (by decide))))
  have h1 : runLoop env 10 0
        ⟨[⟨"user", [MessagePart.text prompt], 0⟩], 0, 0, []⟩ [PromptPart.text prompt]
      = runLoop env 9 1
          ⟨[⟨"user", [MessagePart.text prompt], 0⟩,
            ⟨"assistant", [MessagePart.list [ToolItem.call tc]], 0⟩,
            ⟨"tool", [MessagePart.list [ToolItem.result (execute_tool aenv tc)]], 0⟩],
           0, 0, [[PromptPart.text prompt]]⟩
          [PromptPart.result (execute_tool aenv tc)] := by
    show runLoopBody env _ 1 _ _ = _
    unfold runLoopBody
    rw [if_neg (by rw [hq]; simp)]
    simp only [List.length_nil]
    rw [hreply]
    simp [hexec]
  have hpre := runLoop_extends env 9 1
    ⟨[⟨"user", [MessagePart.text prompt], 0⟩,
      ⟨"assistant", [MessagePart.list [ToolItem.call tc]], 0⟩,
      ⟨"tool", [MessagePart.list [ToolItem.result (execute_tool aenv tc)]], 0⟩],
     0, 0, [[PromptPart.text prompt]]⟩
    [PromptPart.result (execute_tool aenv tc)]
  refine ⟨by rw [hexecr]; rfl, by rw [hexecr]; rfl, hrf, ?_, ?_⟩
  · unfold BaseAgent_run
    dsimp only
    rw [List.nil_append, h1]
    exact hpre.1.subset (by simp)
  · unfold BaseAgent_run
    dsimp only
    rw [List.nil_append, h1]
    exact runLoop_sends_when_no_quota env hq 8 1
      ⟨[⟨"user", [MessagePart.text prompt], 0⟩,
        ⟨"assistant", [MessagePart.list [ToolItem.call tc]], 0⟩,
        ⟨"tool", [MessagePart.list [ToolItem.result (execute_tool aenv tc)]], 0⟩],
       0, 0, [[PromptPart.text prompt]]⟩
      [PromptPart.result (execute_tool aenv tc)]

def envRunC8 : RunEnv :=
  { exec := execute_tool envC8
    reply := fun n _ =>
      if n = 0 then ⟨Option.none, Option.some [tcC8], Option.none, Option.none⟩
      else ⟨Option.some "done", Option.none, Option.none, Option.none⟩
    maxGlobalTokens := 0
    warnThreshold := 0 }

theorem read_file_missing_is_soft_error_witness :
    (execute_tool envC8 tcC8).is_error = false ∧
    2 ≤ (BaseAgent_run envRunC8 0 0 [] "go").sent.length := by
  have h := read_file_missing_is_soft_error fsC8 envRunC8 envC8
    "/no/such/file.txt" "go" tcC8 rfl rfl (by decide) rfl rfl rfl rfl
  exact ⟨h.1, h.2.2.2.2⟩

/-! ## Claims C9, C10: Controller delegation -/

/-- Restatement of the send-log half of `runLoop_extends` that takes
the entry log as an explicit equation (for unification convenience). -/
theorem runLoop_sent_mono_of_eq (env : RunEnv) (fuel round : Nat) (st : LoopState)
    (parts : List PromptPart) (l : List (List PromptPart)) (h : st.sent = l) :
    l <+: (runLoop env fuel round st parts).1.sent :=
  h ▸ (runLoop_extends env fuel round st parts).2

/-- With the quota disabled, the parts of a round's provider call are
appended to the send log and survive to the end of the run. -/
theorem runLoop_sent_after_send (env : RunEnv) (hq : env.maxGlobalTokens = 0)
    (fuel round : Nat) (st : LoopState) (parts : List PromptPart) :
    st.sent ++ [parts] <+: (runLoop env (fuel + 1) round st parts).1.sent := by
  have hnq : ¬(0 < env.maxGlobalTokens ∧ env.maxGlobalTokens ≤ st.pt + st.ct) := by
    rw [hq]; simp
  show st.sent ++ [parts] <+: (runLoopBody env _ _ st parts).1.sent
  unfold runLoopBody
  rw [if_neg hnq]
  rcases htc : (env.reply st.sent.length parts).toolCalls with _ | tcs
  · rcases htext : (env.reply st.sent.length parts).text with _ | t <;>
      simp [htc, htext]
  · rcases tcs with _ | ⟨c, tcs⟩
    · rcases htext : (env.reply st.sent.length parts).text with _ | t <;>
        simp [htc, htext]
    · rcases htext : (env.reply st.sent.length parts).text with _ | t <;>
        (simp only [htc, htext, Option.getD_some, List.map_cons, List.isEmpty_cons,
           Bool.false_eq_true, if_false, List.nil_append]
         exact runLoop_sent_mono_of_eq env fuel (round + 1) _ _ _ rfl)

/-- C9 (amended).  A delegation call naming a specialist outside the
Controller's configured set produces a `ToolResult` whose error enumerates
the valid specialist names, invokes no specialist agent's `run`, and — like
every tool result in the loop — is fed back to the Controller's model as the
next turn's input; the Controller's final text is whatever its model returns
afterwards, not the error string itself. -/
theorem delegate_unknown_specialist (cenv : ControllerEnv) (env : RunEnv)
    (tc : ToolCall) (cname uprompt prompt : String)
    (hname : tc.name = "delegate_task")
    (han : argGet tc.arguments "agent_name" = Option.some (PyVal.str cname))
    (hup : argGet tc.arguments "user_prompt" = Option.some (PyVal.str uprompt))
    (hne : cname ≠ "")
    (hunk : cenv.specialists.lookup cname = Option.none)
    (hexec : env.exec = fun c => (controller_execute_tool cenv c).1)
    (hreply : env.reply 0 [PromptPart.text prompt] =
      ⟨Option.none, Option.some [tc], Option.none, Option.none⟩)
    (hq : env.maxGlobalTokens = 0) :
    (controller_execute_tool cenv tc).1.error = Option.some
      ("[Error: Specialist agent '" ++ cname ++ "' not found. Please choose one of: " ++
        String.intercalate ", " (cenv.specialists.map Prod.fst) ++ "]") ∧
    (controller_execute_tool cenv tc).1.is_error = true ∧
    (controller_execute_tool cenv tc).2 = [] ∧
    [[PromptPart.text prompt],
     [PromptPart.result (controller_execute_tool cenv tc).1]]
      <+: (BaseAgent_run env 0 0 [] prompt).sent := by
  have hca : checkDelegateArgs tc.arguments = Except.ok (cname, uprompt) := by
    unfold checkDelegateArgs
    rw [han]
    dsimp only
    rw [if_neg hne, hup]
  have himp : delegate_task_impl cenv cname uprompt =
      ("[Error: Specialist agent '" ++ cname ++ "' not found. Please choose one of: " ++
        String.intercalate ", " (cenv.specialists.map Prod.fst) ++ "]", []) := by
    unfold delegate_task_impl
    rw [hunk]
  have hstart : pyStartswith
      ("[Error: Specialist agent '" ++ cname ++ "' not found. Please choose one of: " ++
        String.intercalate ", " (cenv.specialists.map Prod.fst) ++ "]") "[Error:" = true :=
    pyStartswith_append _ _ _ (pyStartswith_append _ _ _
      (pyStartswith_append _ _ _ (pyStartswith_append _ _ _ (by decide))))
  have hct : controller_execute_tool cenv tc =
      (mkToolResult tc.id tc.name Option.none
        (Option.some ("[Error: Specialist agent '" ++ cname ++
          "' not found. Please choose one of: " ++
          String.intercalate ", " (cenv.specialists.map Prod.fst) ++ "]")) true, []) := by
    unfold controller_execute_tool
    rw [if_pos hname, hca]
    simp only [himp, hstart, if_true]
  refine ⟨by rw [hct]; rfl, by rw [hct]; rfl, by rw [hct], ?_⟩
  have h1 : runLoop env 10 0
        ⟨[⟨"user", [MessagePart.text prompt], 0⟩], 0, 0, []⟩ [PromptPart.text prompt]
      = runLoop env 9 1
          ⟨[⟨"user", [MessagePart.text prompt], 0⟩,
            ⟨"assistant", [MessagePart.list [ToolItem.call tc]], 0⟩,
            ⟨"tool", [MessagePart.list
              [ToolItem.result (controller_execute_tool cenv tc).1]], 0⟩],
           0, 0, [[PromptPart.text prompt]]⟩
          [PromptPart.result (controller_execute_tool cenv tc).1] := by
    show runLoopBody env _ 1 _ _ = _
    unfold runLoopBody
    rw [if_neg (by rw [hq]; simp)]
    simp only [List.length_nil]
    rw [hreply]
    simp [hexec]
  unfold BaseAgent_run
  dsimp only
  rw [List.nil_append, h1]
  exact runLoop_sent_after_send env hq 8 1
    ⟨[⟨"user", [MessagePart.text prompt], 0⟩,
      ⟨"assistant", [MessagePart.list [ToolItem.call tc]], 0⟩,
      ⟨"tool", [MessagePart.list [ToolItem.result (controller_execute_tool cenv tc).1]], 0⟩],
     0, 0, [[PromptPart.text prompt]]⟩
    [PromptPart.result (controller_execute_tool cenv tc).1]

def cenvC9 : ControllerEnv :=
  ⟨[("A", fun _ => SpecOutcome.ok "resA"), ("B", fun _ => SpecOutcome.ok "resB")]⟩

def tcC9 : ToolCall :=
  ⟨"d1", "delegate_task",
   [("agent_name", PyVal.str "C"), ("user_prompt", PyVal.str "task")]⟩

def envC9 : RunEnv :=
  { exec := fun c => (controller_execute_tool cenvC9 c).1
    reply := fun n _ =>
      if n = 0 then ⟨Option.none, Option.some [tcC9], Option.none, Option.none⟩
      else ⟨Option.some "ok", Option.none, Option.none, Option.none⟩
    maxGlobalTokens := 0
    warnThreshold := 0 }

/-- C9 (counterexample).  Controller with specialists `{A, B}` whose model
delegates to `C` on turn 1 and answers `"ok"` on turn 2: the delegation tool
result is the enumerating error and no specialist runs, but the Controller's
final text is `"ok"` — the model's next answer — not the error string; the
error is only fed back to the model, never returned directly. -/
theorem unknown_specialist_error_not_final_text :
    (controller_execute_tool cenvC9 tcC9).1.error =
      Option.some "[Error: Specialist agent 'C' not found. Please choose one of: A, B]" ∧
    (controller_execute_tool cenvC9 tcC9).2 = [] ∧
    (BaseAgent_run envC9 0 0 [] "task").response = "ok" ∧
    (BaseAgent_run envC9 0 0 [] "task").response ≠
      "[Error: Specialist agent 'C' not found. Please choose one of: A, B]" := by
  refine ⟨rfl, rfl, rfl, by decide⟩

theorem delegate_unknown_specialist_witness :
    (controller_execute_tool cenvC9 tcC9).1.is_error = true ∧
    [[PromptPart.text "task"],
     [PromptPart.result (controller_execute_tool cenvC9 tcC9).1]]
      <+: (BaseAgent_run envC9 0 0 [] "task").sent := by
  have h := delegate_unknown_specialist cenvC9 envC9 tcC9 "C" "task" "task"
    rfl rfl rfl (by decide) rfl rfl rfl rfl
  exact ⟨h.2.1, h.2.2.2⟩

/-- C10.  For a `delegate_task` call with well-typed arguments, the
Controller's `ToolResult.is_error` is exactly the test
`result_str.startswith("[Error:")` on the delegation result string; a
specialist that completes normally has its text passed through as that
string, so a normal completion beginning with `"[Error:"` (such as the
quota-exceeded indicator) is reported as a delegation error with the text in
the `error` field and `result = None`. -/
theorem delegation_error_flag (cenv : ControllerEnv) (tc : ToolCall) (an up : String)
    (hname : tc.name = "delegate_task")
    (han : argGet tc.arguments "agent_name" = Option.some (PyVal.str an))
    (hup : argGet tc.arguments "user_prompt" = Option.some (PyVal.str up))
    (hne : an ≠ "") :
    (controller_execute_tool cenv tc).1.is_error =
      pyStartswith (delegate_task_impl cenv an up).1 "[Error:" ∧
    (∀ f s, cenv.specialists.lookup an = Option.some f → f up = SpecOutcome.ok s →
      (delegate_task_impl cenv an up).1 = s) ∧
    (pyStartswith (delegate_task_impl cenv an up).1 "[Error:" = true →
      (controller_execute_tool cenv tc).1.error =
        Option.some (delegate_task_impl cenv an up).1 ∧
      (controller_execute_tool cenv tc).1.result = Option.none) := by
  have hca : checkDelegateArgs tc.arguments = Except.ok (an, up) := by
    unfold checkDelegateArgs
    rw [han]
    dsimp only
    rw [if_neg hne, hup]
  have hpass : ∀ f s, cenv.specialists.lookup an = Option.some f →
      f up = SpecOutcome.ok s → (delegate_task_impl cenv an up).1 = s := by
    intro f s hf hs
    unfold delegate_task_impl
    rw [hf]
    dsimp only
    rw [hs]
  have hct : controller_execute_tool cenv tc =
      (mkToolResult tc.id tc.name
        (if pyStartswith (delegate_task_impl cenv an up).1 "[Error:" then Option.none
         else Option.some (delegate_task_impl cenv an up).1)
        (if pyStartswith (delegate_task_impl cenv an up).1 "[Error:" then
          Option.some (delegate_task_impl cenv an up).1
         else Option.none)
        (pyStartswith (delegate_task_impl cenv an up).1 "[Error:"),
       (delegate_task_impl cenv an up).2) := by
    unfold controller_execute_tool
    rw [if_pos hname, hca]
  refine ⟨?_, hpass, ?_⟩
  · rw [hct]
    cases hb : pyStartswith (delegate_task_impl cenv an up).1 "[Error:" <;>
      simp [mkToolResult, hb]
  · intro hb
    rw [hct]
    simp [mkToolResult, hb]

def cenvW10 : ControllerEnv :=
  ⟨[("A", fun _ => SpecOutcome.ok "[Error: Token quota exceeded.]")]⟩

def tcW10 : ToolCall :=
  ⟨"d2", "delegate_task",
   [("agent_name", PyVal.str "A"), ("user_prompt", PyVal.str "do it")]⟩

theorem delegation_error_flag_witness :
    (controller_execute_tool cenvW10 tcW10).1.is_error = true ∧
    (controller_execute_tool cenvW10 tcW10).1.error =
      Option.some "[Error: Token quota exceeded.]" := by
  have h := delegation_error_flag cenvW10 tcW10 "A" "do it" rfl rfl rfl (by decide)
  have h2 : (delegate_task_impl cenvW10 "A" "do it").1 =
      "[Error: Token quota exceeded.]" := h.2.1 _ _ rfl rfl
  have hb : pyStartswith (delegate_task_impl cenvW10 "A" "do it").1 "[Error:" = true := by
    rw [h2]; decide
  refine ⟨?_, ?_⟩
  · rw [h.1, hb]
  · have h3 := (h.2.2 hb).1
    rw [h2] at h3
    exact h3

/-! ## Claim C6: Anthropic role alternation -/

/-- The invariant maintained over the conversion fold: the (reversed)
accumulated message list never holds two adjacent entries with the same
role, and `last_role` mirrors the role of the most recently appended
message. -/
def ConvInv (st : List AMsg × Option String) : Prop :=
  List.Chain' (fun a b => a.role ≠ b.role) st.1 ∧
  st.2 = st.1.head?.map AMsg.role

theorem convStep_inv (st st' : List AMsg × Option String) (msg : ChatMessage)
    (hstep : convStep st msg = Option.some st') (hinv : ConvInv st) : ConvInv st' := by
  obtain ⟨acc, lastRole⟩ := st
  obtain ⟨hchain, hlast⟩ := hinv
  unfold convStep at hstep
  dsimp only at hstep
  by_cases hsys : msg.role = "system"
  · rw [if_pos hsys] at hstep
    cases hstep
    exact ⟨hchain, hlast⟩
  · rw [if_neg hsys] at hstep
    cases hcp : convertParts msg.role
        (if msg.role = "model" then "assistant"
         else if msg.role = "tool" then "user" else msg.role) msg.parts with
    | none => rw [hcp] at hstep; cases hstep
    | some blocks =>
        rw [hcp] at hstep
        dsimp only at hstep
        by_cases hbe : blocks.isEmpty
        · rw [if_pos hbe] at hstep
          cases hstep
          exact ⟨hchain, hlast⟩
        · rw [if_neg hbe] at hstep
          rcases acc with _ | ⟨m, rest⟩
          · rcases lastRole with _ | lr <;>
              (cases hstep; exact ⟨List.chain'_singleton _, rfl⟩)
          · rcases lastRole with _ | lr
            · simp only [Option.map_eq_map] at hlast
              simp at hlast
            · simp only [Option.map] at hlast
              have hlr : lr = m.role := by
                simpa using hlast
              dsimp only at hstep
              by_cases heq : lr =
                  (if msg.role = "model" then "assistant"
                   else if msg.role = "tool" then "user" else msg.role)
              · rw [if_pos heq] at hstep
                cases hstep
                constructor
                · rw [List.chain'_cons'] at hchain ⊢
                  exact hchain
                · simp [hlr]
              · rw [if_neg heq] at hstep
                cases hstep
                constructor
                · rw [List.chain'_cons']
                  refine ⟨?_, hchain⟩
                  intro b hb
                  simp only [List.head?_cons, Option.mem_def, Option.some.injEq] at hb
                  subst hb
                  intro hcontra
                  exact heq (by rw [hlr, ← hcontra])
                · simp

theorem foldlM_conv_inv (msgs : List ChatMessage) :
    ∀ st st', msgs.foldlM convStep st = Option.some st' → ConvInv st → ConvInv st' := by
  induction msgs with
  | nil =>
      intro st st' hfold hinv
      simp only [List.foldlM_nil] at hfold
      cases hfold
      exact hinv
  | cons m rest ih =>
      intro st st' hfold hinv
      simp only [List.foldlM_cons] at hfold
      cases hstep : convStep st m with
      | none => rw [hstep] at hfold; cases hfold
      | some st1 =>
          rw [hstep] at hfold
          exact ih st1 st' hfold (convStep_inv st st1 m hstep hinv)

/-- C6.  (a) `_convert_history_to_anthropic` merges consecutive internal
turns that map to the same vendor role, so any converted history it returns
has no two adjacent messages with equal roles; (b) whenever the message list
assembled by `send_message` still contains two consecutive messages with the
same role, the pre-flight scan returns the explicit bracketed error text
instead of calling the vendor API. -/
theorem anthropic_alternation (history : List ChatMessage) (chat_session : List AMsg)
    (parts : List PromptPart) :
    (∀ l, convert_history_to_anthropic history = Option.some l →
      List.Chain' (fun a b => a.role ≠ b.role) l) ∧
    (∀ ms r, assembleMessages chat_session parts = Option.some ms →
      firstConsecDupRole ms = Option.some r →
      send_message_check chat_session parts =
        SendOutcome.error ("[Error: Invalid history state (consecutive roles '" ++ r ++
          "'). Cannot send message.]")) := by
  constructor
  · intro l hl
    unfold convert_history_to_anthropic at hl
    cases hfold : history.foldlM convStep ([], Option.none) with
    | none => rw [hfold] at hl; cases hl
    | some st =>
        rw [hfold] at hl
        simp only [Option.map_some', Option.some.injEq] at hl
        have hinv : ConvInv st :=
          foldlM_conv_inv history ([], Option.none) st hfold ⟨List.chain'_nil, rfl⟩
        have hrev : List.Chain' (fun a b => a.role ≠ b.role) st.1.reverse := by
          rw [List.chain'_reverse]
          exact hinv.1.imp fun a b hab => Ne.symm hab
        rw [← hl]
        rcases hc : st.1.reverse with _ | ⟨m, tail⟩
        · exact List.chain'_nil
        · dsimp only
          by_cases h1 : m.role = "assistant"
          · rw [if_pos h1]; exact List.chain'_nil
          · rw [if_neg h1]
            by_cases h2 : (firstConsecDupRole (m :: tail)).isSome
            · rw [if_pos h2]; exact List.chain'_nil
            · rw [if_neg h2]; rw [← hc]; exact hrev
  · intro ms r hms hdup
    unfold send_message_check
    rw [hms]
    dsimp only
    have hne : ms.isEmpty = false := by
      cases ms with
      | nil => cases hdup
      | cons a tail => rfl
    rw [hne]
    simp only [Bool.false_eq_true, if_false]
    rw [hdup]

def histW6 : List ChatMessage :=
  [⟨"user", [MessagePart.text "hi"], 0⟩,
   ⟨"assistant", [MessagePart.list [ToolItem.call ⟨"c1", "t", []⟩]], 1⟩,
   ⟨"tool", [MessagePart.list [ToolItem.result
      ⟨"c1", "t", Option.some "out1", Option.none, false⟩]], 2⟩,
   ⟨"tool", [MessagePart.list [ToolItem.result
      ⟨"c2", "t", Option.some "out2", Option.none, false⟩]], 3⟩]

def outW6 : List AMsg :=
  [⟨"user", [ABlock.text "hi"]⟩,
   ⟨"assistant", [ABlock.toolUse "c1" "t" []]⟩,
   ⟨"user", [ABlock.toolResult "c1" "out1", ABlock.toolResult "c2" "out2"]⟩]

def csW6 : List AMsg := [⟨"user", [ABlock.text "a"]⟩, ⟨"user", [ABlock.text "b"]⟩]

theorem anthropic_alternation_witness :
    convert_history_to_anthropic histW6 = Option.some outW6 ∧
    List.Chain' (fun a b => a.role ≠ b.role) outW6 ∧
    send_message_check csW6 [PromptPart.text "c"] =
      SendOutcome.error ("[Error: Invalid history state (consecutive roles '" ++ "user" ++
        "'). Cannot send message.]") := by
  refine ⟨rfl, ?_, ?_⟩
  · exact (anthropic_alternation histW6 csW6 [PromptPart.text "c"]).1 outW6 rfl
  · exact (anthropic_alternation histW6 csW6 [PromptPart.text "c"]).2
      [⟨"user", [ABlock.text "a"]⟩, ⟨"user", [ABlock.text "b", ABlock.text "c"]⟩]
      "user" rfl rfl
